import Mathlib

/-!
Shallow embedding of the py-scrypt binding sources `src/scrypt3.c` and
`src/scrypt2.c`.  Byte sequences are lists of naturals; the C `double`
budget arguments are modelled as rationals (the bindings only pass them
through, never compute with them); the external primitive library
(`scryptenc_buf`, `scryptdec_buf`, `crypto_scrypt`) is a parameter of
every operation.  Each operation returns its Python-level outcome
together with a trace of allocation, guard, primitive-call and free
events, mirroring the statement order of the C source.
-/

abbrev Bytes := List Nat

/-- Default budget constants, lines 50-54 of scrypt3.c (identical in scrypt2.c). -/
def g_maxmem_default : Nat := 0

def g_maxmemfrac_default : ℚ := 1/2

def g_maxmemfrac_default_enc : ℚ := 1/8

def g_maxtime_default : ℚ := 300

def g_maxtime_default_enc : ℚ := 5

/-- The primitive-library error-code table `g_error_codes`, lines 33-48 of scrypt3.c. -/
def g_error_codes : List String :=
  ["success",
   "getrlimit or sysctl(hw.usermem) failed",
   "clock_getres or clock_gettime failed",
   "error computing derived key",
   "could not read salt from /dev/urandom",
   "error in OpenSSL",
   "malloc failed",
   "data is not a valid scrypt-encrypted block",
   "unrecognized scrypt format",
   "decrypting file would take too much memory",
   "decrypting file would take too long",
   "password is incorrect",
   "error writing output file",
   "error reading input file"]

/-- Message attached to a raised scrypt.error for primitive error code `code`. -/
def errorMessage (code : Nat) : String := g_error_codes.getD code ""

/-- Message raised when the hash parameter check fails, scrypt3.c line 166. -/
def hashParamsWrongMsg : String :=
  "hash parameters are wrong (r*p should be < 2**30, and N should be a power of two > 1)"

/-- Message raised when crypto_scrypt itself fails, scrypt3.c line 169. -/
def couldNotComputeMsg : String := "could not compute hash"

/-- PyErr_Format sets the pending scrypt.error with a formatted message. -/
def pyErrFormat (msg : String) : Option String := some msg

/-- PyErr_SetNone replaces the pending exception with one whose value is None,
discarding any message set before it. -/
def pyErrSetNone (_prev : Option String) : Option String := none

/-- Buffer-lifecycle and primitive-call events, in the order the C statements run. -/
inductive Event where
  | alloc (size : Nat)
  | guardCheck
  | primCall
  | free
deriving DecidableEq

/-- PyMem_Malloc: a fresh buffer of `n` cells (uninitialized in C, zeros here). -/
def PyMem_Malloc (n : Nat) : Bytes := List.replicate n 0

/-- A primitive writing `data` into `buf`: the buffer keeps its capacity, a write
past the end is cut at the capacity. -/
def writeBytes (buf data : Bytes) : Bytes :=
  data.take buf.length ++ buf.drop data.length

/-- The external primitive library: raw derivation, buffer encryption and
buffer decryption (error branch carries the nonzero error code; the decrypt
success branch carries the written plaintext and the reported output length),
and the entropy stream scryptenc_buf draws its salt from. -/
structure PrimEnv where
  crypto_scrypt : Bytes → Bytes → Nat → Nat → Nat → Nat → Option Bytes
  scryptenc_buf : Bytes → Bytes → Nat → ℚ → ℚ → Except Nat Bytes
  scryptdec_buf : Bytes → Bytes → Nat → ℚ → ℚ → Except Nat (Bytes × Nat)
  entropy : Nat → Nat

/-- scrypt_encrypt, scrypt3.c lines 56-90: malloc a buffer of `inputlen+129`,
call scryptenc_buf, on a nonzero code format the mapped message and then
overwrite it with PyErr_SetNone, on success build the value from the first
`inputlen+128` bytes of the buffer, free the buffer, return. -/
def scrypt_encrypt (env : PrimEnv) (input password : Bytes)
    (maxtime : ℚ) (maxmem : Nat) (maxmemfrac : ℚ) :
    Except (Option String) Bytes × List Event :=
  match env.scryptenc_buf input password maxmem maxmemfrac maxtime with
  | .error code =>
      (.error (pyErrSetNone (pyErrFormat (errorMessage code))),
       [.alloc (input.length + 129), .primCall, .free])
  | .ok written =>
      (.ok ((writeBytes (PyMem_Malloc (input.length + 129)) written).take (input.length + 128)),
       [.alloc (input.length + 129), .primCall, .free])

/-- scrypt_decrypt, scrypt3.c lines 92-125: malloc a buffer of `inputlen`,
call scryptdec_buf, on a nonzero code raise the mapped message, on success
build the value from the first `outputlen` bytes of the buffer (the reported
length is not checked against the capacity), free the buffer, return. -/
def scrypt_decrypt (env : PrimEnv) (input password : Bytes)
    (maxtime : ℚ) (maxmem : Nat) (maxmemfrac : ℚ) :
    Except (Option String) Bytes × List Event :=
  match env.scryptdec_buf input password maxmem maxmemfrac maxtime with
  | .error code =>
      (.error (pyErrFormat (errorMessage code)),
       [.alloc input.length, .primCall, .free])
  | .ok (written, outputlen) =>
      (.ok ((writeBytes (PyMem_Malloc input.length) written).take outputlen),
       [.alloc input.length, .primCall, .free])

/-- The parameter check of scrypt_hash, scrypt3.c line 151 (identical at
scrypt2.c line 176): `r * p >= (1 << 30) || N <= 1 || (N & (N-1)) != 0`,
with `r * p` computed in 32-bit unsigned arithmetic. -/
def paramerror (N r p : Nat) : Bool :=
  decide (2 ^ 30 ≤ r * p % 2 ^ 32) || decide (N ≤ 1) || decide (Nat.land N (N - 1) ≠ 0)

/-- scrypt_hash, scrypt3.c lines 126-176 (the same body at scrypt2.c lines
145-204): truncate the parsed arguments to their C widths, malloc a 64-byte
buffer, run the parameter check, on rejection raise the fixed message, else
call crypto_scrypt and either raise `could not compute hash` or build the
value from the first 64 bytes of the buffer; free the buffer, return. -/
def scrypt_hash (env : PrimEnv) (password salt : Bytes) (N r p : Nat) :
    Except (Option String) Bytes × List Event :=
  if paramerror (N % 2 ^ 64) (r % 2 ^ 32) (p % 2 ^ 32) then
    (.error (pyErrFormat hashParamsWrongMsg), [.alloc 64, .guardCheck, .free])
  else
    match env.crypto_scrypt password salt (N % 2 ^ 64) (r % 2 ^ 32) (p % 2 ^ 32) 64 with
    | none =>
        (.error (pyErrFormat couldNotComputeMsg),
         [.alloc 64, .guardCheck, .primCall, .free])
    | some out =>
        (.ok ((writeBytes (PyMem_Malloc 64) out).take 64),
         [.alloc 64, .guardCheck, .primCall, .free])

/-- scrypt_hash of scrypt3.c with its defaults `N = 1 << 14`, `r = 8`, `p = 1`
(lines 130-132) applied to omitted arguments. -/
def scrypt_hash_v3 (env : PrimEnv) (password salt : Bytes)
    (Nopt ropt popt : Option Nat) : Except (Option String) Bytes × List Event :=
  scrypt_hash env password salt (Nopt.getD (1 <<< 14)) (ropt.getD 8) (popt.getD 1)

/-- scrypt_hash of scrypt2.c with its defaults `N = 1024`, `r = 1`, `p = 1`
(lines 149-151) applied to omitted arguments. -/
def scrypt_hash_v2 (env : PrimEnv) (password salt : Bytes)
    (Nopt ropt popt : Option Nat) : Except (Option String) Bytes × List Event :=
  scrypt_hash env password salt (Nopt.getD 1024) (ropt.getD 1) (popt.getD 1)

example : paramerror 3 1 1 = true := by decide

example : paramerror 16 (2 ^ 20) (2 ^ 20) = false := by decide

example : paramerror 16384 8 1 = false := by decide

theorem writeBytes_length (buf data : Bytes) : (writeBytes buf data).length = buf.length := by
  simp only [writeBytes, List.length_append, List.length_take, List.length_drop]
  omega

theorem writeBytes_take_of_le (cap : Nat) (data : Bytes) (h : data.length ≤ cap) :
    (writeBytes (PyMem_Malloc cap) data).take data.length = data := by
  unfold writeBytes PyMem_Malloc
  rw [List.length_replicate, List.take_of_length_le h]
  exact List.take_left data _

/-- Modelled from the spec: the encrypted container format is owned by the
external primitive library (its implementation is not under src/); per the
spec it is an opaque blob of `len(plaintext)+128` bytes embedding the cost
parameters actually chosen at encryption time, authentication data for the
password, and the ciphertext.  The 128-cell header holds the chosen cost
(as numerator-sign split and denominator), an authentication tag for the
password, and padding. -/
def encodeContainer (cost : ℚ) (pw pt : Bytes) : Bytes :=
  cost.num.toNat :: (-cost.num).toNat :: cost.den :: Encodable.encode pw ::
    (List.replicate 124 0 ++ pt)

/-- Modelled from the spec: recover the cost embedded in a container header. -/
def decodeCost (a b d : Nat) : ℚ := ((a : ℚ) - (b : ℚ)) / (d : ℚ)

/-- Modelled from the spec: parse a container back into the embedded cost,
the password authentication tag and the ciphertext payload. -/
def decodeContainer (c : Bytes) : Option (ℚ × Nat × Bytes) :=
  match c with
  | a :: b :: d :: tag :: rest =>
      if 124 ≤ rest.length then some (decodeCost a b d, tag, rest.drop 124)
      else none
  | _ => none

theorem decodeCost_encode (q : ℚ) : decodeCost q.num.toNat (-q.num).toNat q.den = q := by
  have h : ((q.num.toNat : ℤ) - ((-q.num).toNat : ℤ)) = q.num := by omega
  have h2 := congrArg (fun z : ℤ => (z : ℚ)) h
  push_cast at h2
  unfold decodeCost
  rw [h2, Rat.num_div_den]

theorem encodeContainer_length (cost : ℚ) (pw pt : Bytes) :
    (encodeContainer cost pw pt).length = pt.length + 128 := by
  simp only [encodeContainer, List.length_cons, List.length_append, List.length_replicate]
  omega

theorem decodeContainer_encode (cost : ℚ) (pw pt : Bytes) :
    decodeContainer (encodeContainer cost pw pt)
      = some (cost, Encodable.encode pw, pt) := by
  unfold decodeContainer encodeContainer
  have hlen : 124 ≤ (List.replicate 124 (0 : Nat) ++ pt).length := by simp
  have hdrop : (List.replicate 124 (0 : Nat) ++ pt).drop 124 = pt := by
    rw [show 124 = (List.replicate 124 (0 : Nat)).length from (List.length_replicate _ _).symm]
    exact List.drop_left _ _
  simp only [hlen, if_pos, hdrop, decodeCost_encode]

/-- Modelled from the spec: encryptBuf of the Primitive Library encrypts the
input under the password, choosing an actual derivation cost (`cost`) within
the declared budget, and writes a container of `len(input)+128` bytes. -/
def encBufModel (cost : ℚ) : Bytes → Bytes → Nat → ℚ → ℚ → Except Nat Bytes :=
  fun input password _maxmem _maxmemfrac _maxtime =>
    .ok (encodeContainer cost password input)

/-- Modelled from the spec: decryptBuf of the Primitive Library parses the
embedded header to recover the cost chosen at encryption time, rejects when
it exceeds the supplied time budget (code 10), authenticates the password
(code 11 on mismatch), rejects malformed containers (code 7), and otherwise
emits the plaintext together with its length. -/
def decBufModel : Bytes → Bytes → Nat → ℚ → ℚ → Except Nat (Bytes × Nat) :=
  fun input password _maxmem _maxmemfrac maxtime =>
    match decodeContainer input with
    | none => .error 7
    | some (cost, tag, pt) =>
        if maxtime < cost then .error 10
        else if tag = Encodable.encode password then .ok (pt, pt.length)
        else .error 11

/-- Modelled from the spec: a primitive library whose encryption chooses the
actual derivation cost `cost`, paired with the model decryptBuf. -/
def modelEnv (cost : ℚ) : PrimEnv where
  crypto_scrypt := fun _ _ _ _ _ _ => none
  scryptenc_buf := encBufModel cost
  scryptdec_buf := decBufModel
  entropy := fun _ => 0

def isAlloc : Event → Bool
  | .alloc _ => true
  | _ => false

def isFree : Event → Bool
  | .free => true
  | _ => false

def isPrimCall : Event → Bool
  | .primCall => true
  | _ => false

/-- Some allocation event happens strictly before the guard check. -/
def allocBeforeGuard (tr : List Event) : Bool :=
  (tr.takeWhile fun e => decide (e ≠ Event.guardCheck)).any isAlloc

/-- No primitive call happens before the guard check. -/
def guardBeforePrim (tr : List Event) : Bool :=
  !((tr.takeWhile fun e => decide (e ≠ Event.guardCheck)).any isPrimCall)

/-- The trace allocates exactly once, frees exactly once, and the free is the
final event of the call. -/
def bufferBalanced (tr : List Event) : Bool :=
  (tr.countP isAlloc == 1) && (tr.countP isFree == 1) &&
    decide (tr.getLast? = some Event.free)

/-- A primitive library all of whose calls fail with error code `code`. -/
def failEnv (code : Nat) : PrimEnv where
  crypto_scrypt := fun _ _ _ _ _ _ => none
  scryptenc_buf := fun _ _ _ _ _ => .error code
  scryptdec_buf := fun _ _ _ _ _ => .error code
  entropy := fun _ => 0

/-- A primitive library whose calls all fail; used as an arbitrary concrete
environment. -/
def envNone : PrimEnv := failEnv 6

/-- A primitive library whose raw derivation writes 64 bytes of value 5. -/
def envHashOk : PrimEnv where
  crypto_scrypt := fun _ _ _ _ _ _ => some (List.replicate 64 5)
  scryptenc_buf := fun _ _ _ _ _ => .error 6
  scryptdec_buf := fun _ _ _ _ _ => .error 6
  entropy := fun _ => 0

/-- A primitive library whose buffer encryption writes `len(input)+128` bytes. -/
def envEncOk : PrimEnv where
  crypto_scrypt := fun _ _ _ _ _ _ => none
  scryptenc_buf := fun input _ _ _ _ => .ok (input ++ List.replicate 128 7)
  scryptdec_buf := fun _ _ _ _ _ => .error 6
  entropy := fun _ => 0

/-- A primitive library whose buffer decryption writes two bytes and reports
output length 2. -/
def envDecOk : PrimEnv where
  crypto_scrypt := fun _ _ _ _ _ _ => none
  scryptenc_buf := fun _ _ _ _ _ => .error 6
  scryptdec_buf := fun _ _ _ _ _ => .ok ([5, 6], 2)
  entropy := fun _ => 0

/-- A primitive library whose buffer decryption reports an output length one
past the allocated capacity of a 3-byte input buffer. -/
def envDecLong : PrimEnv where
  crypto_scrypt := fun _ _ _ _ _ _ => none
  scryptenc_buf := fun _ _ _ _ _ => .error 6
  scryptdec_buf := fun _ _ _ _ _ => .ok ([9, 9, 9], 4)
  entropy := fun _ => 0

/-- C1: for every plaintext, password, encryption budget and decryption budget
whose time ceiling is at least the derivation cost actually chosen at
encryption time, decrypting the output of encryption under the same password
succeeds and returns exactly the plaintext (primitive library modelled from
the spec, its implementation being outside src/). -/
theorem C1_round_trip (cost : ℚ) (pt pw : Bytes)
    (emt : ℚ) (emm : Nat) (emf : ℚ) (dmt : ℚ) (dmm : Nat) (dmf : ℚ)
    (hbudget : cost ≤ dmt) :
    ∃ ct, (scrypt_encrypt (modelEnv cost) pt pw emt emm emf).1 = .ok ct ∧
      (scrypt_decrypt (modelEnv cost) ct pw dmt dmm dmf).1 = .ok pt := by
  have hl := encodeContainer_length cost pw pt
  refine ⟨encodeContainer cost pw pt, ?_, ?_⟩
  · unfold scrypt_encrypt
    show Except.ok ((writeBytes (PyMem_Malloc (pt.length + 129)) (encodeContainer cost pw pt)).take (pt.length + 128)) = _
    rw [show pt.length + 128 = (encodeContainer cost pw pt).length from hl.symm]
    rw [writeBytes_take_of_le _ _ (by omega)]
  · unfold scrypt_decrypt
    show (match decBufModel (encodeContainer cost pw pt) pw dmm dmf dmt with
      | .error code =>
          (Except.error (pyErrFormat (errorMessage code)),
           [Event.alloc (encodeContainer cost pw pt).length, Event.primCall, Event.free])
      | .ok (written, outputlen) =>
          (Except.ok ((writeBytes (PyMem_Malloc (encodeContainer cost pw pt).length) written).take outputlen),
           [Event.alloc (encodeContainer cost pw pt).length, Event.primCall, Event.free])).1 = _
    have hdec : decBufModel (encodeContainer cost pw pt) pw dmm dmf dmt
        = .ok (pt, pt.length) := by
      unfold decBufModel
      rw [decodeContainer_encode]
      simp [not_lt.mpr hbudget]
    rw [hdec]
    show Except.ok ((writeBytes (PyMem_Malloc (encodeContainer cost pw pt).length) pt).take pt.length) = _
    rw [writeBytes_take_of_le _ _ (by omega)]

/-- C2: the cost-parameter check computes `r * p` in 32-bit arithmetic, so for
`N = 16`, `r = 2^20`, `p = 2^20` the exact product `2^40 ≥ 2^30` wraps to 0,
the check passes, the call does not fail with the InvalidParams message, and
crypto_scrypt is invoked, contradicting the claim. -/
theorem C2_cost_bound_overflow :
    2 ^ 30 ≤ 2 ^ 20 * 2 ^ 20 ∧
    paramerror (16 % 2 ^ 64) (2 ^ 20 % 2 ^ 32) (2 ^ 20 % 2 ^ 32) = false ∧
    ∀ (env : PrimEnv) (pw salt : Bytes),
      (scrypt_hash env pw salt 16 (2 ^ 20) (2 ^ 20)).1
          ≠ .error (pyErrFormat hashParamsWrongMsg) ∧
      Event.primCall ∈ (scrypt_hash env pw salt 16 (2 ^ 20) (2 ^ 20)).2 := by
  refine ⟨by norm_num, by decide, fun env pw salt => ?_⟩
  unfold scrypt_hash
  rw [if_neg (by decide)]
  cases env.crypto_scrypt pw salt (16 % 2 ^ 64) (2 ^ 20 % 2 ^ 32) (2 ^ 20 % 2 ^ 32) 64 with
  | none =>
      refine ⟨?_, ?_⟩
      · show Except.error (pyErrFormat couldNotComputeMsg)
            ≠ Except.error (pyErrFormat hashParamsWrongMsg)
        simp only [ne_eq, Except.error.injEq, pyErrFormat, Option.some.injEq]
        decide
      · show Event.primCall ∈ [Event.alloc 64, Event.guardCheck, Event.primCall, Event.free]
        decide
  | some out =>
      refine ⟨?_, ?_⟩
      · show Except.ok ((writeBytes (PyMem_Malloc 64) out).take 64)
            ≠ Except.error (pyErrFormat hashParamsWrongMsg)
        simp
      · show Event.primCall ∈ [Event.alloc 64, Event.guardCheck, Event.primCall, Event.free]
        decide

/-- C3: on a primitive failure scrypt_encrypt formats the mapped message and
then immediately overwrites the pending exception with PyErr_SetNone, so the
surfaced scrypt.error carries no message; scrypt_decrypt by contrast surfaces
the mapped message.  The claim that every operation surfaces the mapped
message therefore fails on the encrypt path. -/
theorem C3_encrypt_discards_message (pt pw : Bytes) (code : Nat) :
    (scrypt_encrypt (failEnv code) pt pw g_maxtime_default_enc g_maxmem_default
        g_maxmemfrac_default_enc).1 = .error none ∧
    (scrypt_decrypt (failEnv code) pt pw g_maxtime_default g_maxmem_default
        g_maxmemfrac_default).1 = .error (some (errorMessage code)) := by
  exact ⟨rfl, rfl⟩

/-- C4: the scrypt3.c generation defaults the cost parameters to `N = 16384`,
`r = 8`, `p = 1` as the claim states, but the scrypt2.c generation defaults
them to `N = 1024`, `r = 1`, `p = 1`, contradicting the claim (and the
docstring of scrypt2.c itself). -/
theorem C4_hash_default_params :
    (∀ (env : PrimEnv) (pw salt : Bytes),
        scrypt_hash_v3 env pw salt none none none = scrypt_hash env pw salt 16384 8 1) ∧
    (∀ (env : PrimEnv) (pw salt : Bytes),
        scrypt_hash_v2 env pw salt none none none = scrypt_hash env pw salt 1024 1 1) ∧
    ((1024 : Nat), (1 : Nat), (1 : Nat)) ≠ ((16384 : Nat), (8 : Nat), (1 : Nat)) :=
  ⟨fun _ _ _ => rfl, fun _ _ _ => rfl, by decide⟩

/-- C6: every successful hash call returns a byte sequence of length exactly
64, whatever the primitive library and the parameters. -/
theorem C6_hash_output_length (env : PrimEnv) (pw salt : Bytes) (N r p : Nat)
    (out : Bytes) (h : (scrypt_hash env pw salt N r p).1 = .ok out) :
    out.length = 64 := by
  unfold scrypt_hash at h
  by_cases hpe : paramerror (N % 2 ^ 64) (r % 2 ^ 32) (p % 2 ^ 32)
  · rw [if_pos hpe] at h
    exact absurd h (by simp)
  · rw [if_neg hpe] at h
    cases hc : env.crypto_scrypt pw salt (N % 2 ^ 64) (r % 2 ^ 32) (p % 2 ^ 32) 64 with
    | none => rw [hc] at h; exact absurd h (by simp)
    | some o =>
        rw [hc] at h
        injection h with h
        subst h
        rw [List.length_take, writeBytes_length]
        simp [PyMem_Malloc]

/-- C6 witness: a concrete successful hash call returning 64 bytes. -/
theorem C6_hash_output_length_witness :
    (scrypt_hash envHashOk [] [] 4 1 1).1 = .ok (List.replicate 64 5) ∧
    (List.replicate 64 5 : Bytes).length = 64 :=
  ⟨rfl, C6_hash_output_length envHashOk [] [] 4 1 1 (List.replicate 64 5) rfl⟩

/-- C7: every successful encrypt call returns a byte sequence of length
exactly `len(plaintext) + 128`, whatever the primitive library; a failing
call carries only an error value, never bytes. -/
theorem C7_encrypt_output_length (env : PrimEnv) (input pw : Bytes)
    (mt : ℚ) (mm : Nat) (mf : ℚ) (out : Bytes)
    (h : (scrypt_encrypt env input pw mt mm mf).1 = .ok out) :
    out.length = input.length + 128 := by
  unfold scrypt_encrypt at h
  cases hc : env.scryptenc_buf input pw mm mf mt with
  | error code => rw [hc] at h; exact absurd h (by simp)
  | ok written =>
      rw [hc] at h
      injection h with h
      subst h
      rw [List.length_take, writeBytes_length]
      simp only [PyMem_Malloc, List.length_replicate]
      omega

set_option maxRecDepth 4000 in
/-- C7 witness: a concrete successful encrypt call on a 2-byte plaintext
returning 130 bytes. -/
theorem C7_encrypt_output_length_witness :
    (scrypt_encrypt envEncOk [1, 2] [3] 5 0 (1/8)).1
        = .ok ([1, 2] ++ List.replicate 128 7) ∧
    ([1, 2] ++ List.replicate 128 7 : Bytes).length = [1, 2].length + 128 :=
  ⟨rfl, C7_encrypt_output_length envEncOk [1, 2] [3] 5 0 (1/8)
    ([1, 2] ++ List.replicate 128 7) rfl⟩

/-- C5 counterexample: at `N = 3`, `r = 1`, `p = 1` the guard rejects, yet the
trace of the call shows the 64-byte buffer allocation happening strictly
before the guard check, so the guard does not execute before any buffer
allocation as claimed. -/
theorem C5_alloc_precedes_guard_counterexample :
    allocBeforeGuard (scrypt_hash envNone [] [] 3 1 1).2 = true ∧
    (scrypt_hash envNone [] [] 3 1 1).1 = .error (some hashParamsWrongMsg) := by
  exact ⟨rfl, rfl⟩

/-- C5 (amended): for every call to hash — accepting or rejecting — the guard
check executes before any primitive call in the trace, and whenever the guard
rejects the parameters the call raises the InvalidParams message and
crypto_scrypt is never invoked; the 64-byte output buffer is however
allocated before the guard runs (and freed on the reject path). -/
theorem C5_guard_before_primitive (env : PrimEnv) (pw salt : Bytes) (N r p : Nat) :
    guardBeforePrim (scrypt_hash env pw salt N r p).2 = true ∧
    (paramerror (N % 2 ^ 64) (r % 2 ^ 32) (p % 2 ^ 32) = true →
      (scrypt_hash env pw salt N r p).1 = .error (some hashParamsWrongMsg) ∧
      Event.primCall ∉ (scrypt_hash env pw salt N r p).2) := by
  unfold scrypt_hash
  by_cases hpe : paramerror (N % 2 ^ 64) (r % 2 ^ 32) (p % 2 ^ 32)
  · rw [if_pos hpe]
    exact ⟨rfl, fun _ => ⟨rfl, by decide⟩⟩
  · rw [if_neg hpe]
    refine ⟨?_, fun hcontra => absurd hcontra hpe⟩
    cases env.crypto_scrypt pw salt (N % 2 ^ 64) (r % 2 ^ 32) (p % 2 ^ 32) 64 <;> rfl

/-- C5 witness: the amended statement at the concrete rejected input `N = 3`
(implication discharged: InvalidParams raised, no primitive call) and at the
concrete accepted input `N = 4` (the guard check precedes the primitive call
actually present in the trace). -/
theorem C5_guard_before_primitive_witness :
    paramerror (3 % 2 ^ 64) (1 % 2 ^ 32) (1 % 2 ^ 32) = true ∧
    (guardBeforePrim (scrypt_hash envNone [] [] 3 1 1).2 = true ∧
     ((scrypt_hash envNone [] [] 3 1 1).1 = .error (some hashParamsWrongMsg) ∧
      Event.primCall ∉ (scrypt_hash envNone [] [] 3 1 1).2)) ∧
    (guardBeforePrim (scrypt_hash envHashOk [] [] 4 1 1).2 = true ∧
     Event.primCall ∈ (scrypt_hash envHashOk [] [] 4 1 1).2) :=
  ⟨by decide,
   ⟨(C5_guard_before_primitive envNone [] [] 3 1 1).1,
    (C5_guard_before_primitive envNone [] [] 3 1 1).2 (by decide)⟩,
   (C5_guard_before_primitive envHashOk [] [] 4 1 1).1, by decide⟩

/-- C8 counterexample: with a 3-byte ciphertext (so a 3-cell output buffer)
and a primitive reporting output length 4, the call returns a non-error
value whose bytes are silently cut at the buffer capacity, so the reported
length is not validated against the capacity and no internal-error condition
arises. -/
theorem C8_no_capacity_check_counterexample :
    (3 : Nat) < 4 ∧
    (scrypt_decrypt envDecLong [1, 2, 3] [7] g_maxtime_default g_maxmem_default
        g_maxmemfrac_default).1 = .ok [9, 9, 9] := by
  exact ⟨by decide, rfl⟩

/-- C8 (amended): a successful decrypt returns exactly the first usedLen
bytes of the output buffer as reported by the primitive; the report is
trusted without a capacity check, and whenever it does not exceed the
capacity the returned length is exactly usedLen. -/
theorem C8_decrypt_returns_reported_prefix (env : PrimEnv) (input pw : Bytes)
    (mt : ℚ) (mm : Nat) (mf : ℚ) (written : Bytes) (usedLen : Nat)
    (hprim : env.scryptdec_buf input pw mm mf mt = .ok (written, usedLen))
    (hcap : usedLen ≤ input.length) :
    (scrypt_decrypt env input pw mt mm mf).1
        = .ok ((writeBytes (PyMem_Malloc input.length) written).take usedLen) ∧
    ((writeBytes (PyMem_Malloc input.length) written).take usedLen).length = usedLen := by
  constructor
  · unfold scrypt_decrypt
    rw [hprim]
  · rw [List.length_take, writeBytes_length]
    simp only [PyMem_Malloc, List.length_replicate]
    omega

/-- C8 witness: the amended statement at a concrete 3-byte input with the
primitive reporting 2 bytes written. -/
theorem C8_decrypt_returns_reported_prefix_witness :
    envDecOk.scryptdec_buf [1, 2, 3] [7] 0 (1/2) 300 = .ok ([5, 6], 2) ∧
    (2 : Nat) ≤ 3 ∧
    ((scrypt_decrypt envDecOk [1, 2, 3] [7] 300 0 (1/2)).1
        = .ok ((writeBytes (PyMem_Malloc 3) [5, 6]).take 2) ∧
     ((writeBytes (PyMem_Malloc 3) [5, 6]).take 2).length = 2) :=
  ⟨rfl, by decide,
   C8_decrypt_returns_reported_prefix envDecOk [1, 2, 3] [7] 300 0 (1/2) [5, 6] 2
     rfl (by decide)⟩

/-- C9: every operation's trace allocates its output buffer exactly once and
frees it exactly once, with the free as final event, on the primitive
success, primitive failure and guard-rejection paths alike, whatever the
primitive library does. -/
theorem C9_buffer_released_exactly_once (env : PrimEnv) (input pw salt : Bytes)
    (N r p : Nat) (mt : ℚ) (mm : Nat) (mf : ℚ) :
    bufferBalanced (scrypt_encrypt env input pw mt mm mf).2 = true ∧
    bufferBalanced (scrypt_decrypt env input pw mt mm mf).2 = true ∧
    bufferBalanced (scrypt_hash env pw salt N r p).2 = true := by
  refine ⟨?_, ?_, ?_⟩
  · unfold scrypt_encrypt
    cases env.scryptenc_buf input pw mm mf mt <;> rfl
  · unfold scrypt_decrypt
    rcases env.scryptdec_buf input pw mm mf mt with code | ⟨w, n⟩ <;> rfl
  · unfold scrypt_hash
    by_cases hpe : paramerror (N % 2 ^ 64) (r % 2 ^ 32) (p % 2 ^ 32)
    · rw [if_pos hpe]
      rfl
    · rw [if_neg hpe]
      cases env.crypto_scrypt pw salt (N % 2 ^ 64) (r % 2 ^ 32) (p % 2 ^ 32) 64 <;> rfl

/-- C10: the hash operation consults only the raw-derivation primitive and
its own arguments: two calls against libraries that agree on crypto_scrypt
(entropy stream and the buffer primitives arbitrary), with equal passwords,
salts and cost parameters, return the same outcome and the same trace. -/
theorem C10_hash_deterministic (e1 e2 : PrimEnv)
    (hd : e1.crypto_scrypt = e2.crypto_scrypt)
    (pw1 pw2 salt1 salt2 : Bytes) (N1 N2 r1 r2 p1 p2 : Nat)
    (hpw : pw1 = pw2) (hsalt : salt1 = salt2)
    (hN : N1 = N2) (hr : r1 = r2) (hp : p1 = p2) :
    scrypt_hash e1 pw1 salt1 N1 r1 p1 = scrypt_hash e2 pw2 salt2 N2 r2 p2 := by
  subst hpw hsalt hN hr hp
  unfold scrypt_hash
  rw [hd]

/-- A primitive library sharing envHashOk's raw derivation but with a
different entropy stream and different buffer primitives. -/
def envEntropyB : PrimEnv where
  crypto_scrypt := fun _ _ _ _ _ _ => some (List.replicate 64 5)
  scryptenc_buf := fun _ _ _ _ _ => .error 3
  scryptdec_buf := fun _ _ _ _ _ => .error 3
  entropy := fun n => n + 1

/-- C10 witness: two concrete libraries agreeing only on crypto_scrypt give
the same hash outcome at equal arguments. -/
theorem C10_hash_deterministic_witness :
    envHashOk.crypto_scrypt = envEntropyB.crypto_scrypt ∧
    scrypt_hash envHashOk [1] [2] 16384 8 1 = scrypt_hash envEntropyB [1] [2] 16384 8 1 :=
  ⟨rfl, C10_hash_deterministic envHashOk envEntropyB rfl [1] [1] [2] [2]
    16384 16384 8 8 1 1 rfl rfl rfl rfl rfl⟩

/-- C1 witness: the round trip at a concrete plaintext, password and budgets,
with encryption cost 1 and decryption time budget 300. -/
theorem C1_round_trip_witness :
    (1 : ℚ) ≤ 300 ∧
    ∃ ct, (scrypt_encrypt (modelEnv 1) [1, 2] [3] 5 0 (1/8)).1 = .ok ct ∧
      (scrypt_decrypt (modelEnv 1) ct [3] 300 0 (1/2)).1 = .ok [1, 2] :=
  ⟨by norm_num, C1_round_trip 1 [1, 2] [3] 5 0 (1/8) 300 0 (1/2) (by norm_num)⟩
